import Mathlib

/-!
Verification of the custom entity recognizers of the desktop-redactor
repository (src/core/custom_recognizers.py).

Strings are modelled as lists of characters over the ASCII range: the
recognizers operate on regex candidates drawn from ASCII classes, and the
Python predicates str.isdigit / str.isalpha are modelled by their ASCII
meaning (code points 48-57 for digits, 65-90 and 97-122 for letters).
Python regular-expression whitespace [\s] is modelled by the six ASCII
whitespace characters.
-/

/-- ASCII model of the Python character predicate c.isdigit(). -/
def pyIsDigit (c : Char) : Bool := decide (48 ≤ c.toNat ∧ c.toNat ≤ 57)

/-- ASCII model of the Python character predicate c.isalpha(). -/
def pyIsAlpha (c : Char) : Bool :=
  decide ((65 ≤ c.toNat ∧ c.toNat ≤ 90) ∨ (97 ≤ c.toNat ∧ c.toNat ≤ 122))

/-- ASCII model of the regex class [\s]: space, tab, newline, carriage
return, vertical tab, form feed. -/
def pyIsSpaceChar (c : Char) : Bool :=
  decide (c.toNat = 32 ∨ c.toNat = 9 ∨ c.toNat = 10 ∨ c.toNat = 13 ∨ c.toNat = 11 ∨ c.toNat = 12)

/-- Numeric value of a digit character, Python int(c). -/
def digitVal (c : Char) : Nat := c.toNat - 48

/-- ASCII model of Python str.upper() on one character. -/
def pyUpper (c : Char) : Char :=
  if 97 ≤ c.toNat ∧ c.toNat ≤ 122 then Char.ofNat (c.toNat - 32) else c

/-- Python s.isdigit() on a string: nonempty and all digits. -/
def pyStrIsDigit (l : List Char) : Bool := decide (l ≠ []) && l.all pyIsDigit

/-- Python s.isalpha() on a string: nonempty and all letters. -/
def pyStrIsAlpha (l : List Char) : Bool := decide (l ≠ []) && l.all pyIsAlpha

/-- Characters matched by the regex class [\s-] (separators removed by the
CRN and driver licence validators). -/
def sepClass (c : Char) : Bool := pyIsSpaceChar c || decide (c = '-')

/-- A regex word character [A-Za-z0-9_], used for the \b anchors. -/
def isWordChar (c : Char) : Bool := pyIsAlpha c || pyIsDigit c || decide (c = '_')

/-- Whether the character at position k is a word character (out of range
counts as a non-word position). -/
def wordAt (s : List Char) (k : Nat) : Bool := decide (k < s.length) && isWordChar (s.getD k ' ')

/-- The regex word-boundary predicate \b at position j of s. -/
def isWordBoundary (s : List Char) (j : Nat) : Bool :=
  (if j = 0 then false else wordAt s (j - 1)) != wordAt s j

/-- One fixed-width group of a pattern: a length and a character class. -/
abbrev CharGroup := Nat × (Char → Bool)

/-- All k characters of s starting at position i satisfy the class p. -/
def rangeAll (s : List Char) (i k : Nat) (p : Char → Bool) : Bool :=
  ((s.drop i).take k).all p

/-- Total width of a sequence of groups. -/
def groupsLen (gs : List CharGroup) : Nat := (gs.map (fun g => g.1)).sum

/-- The groups gs match consecutively starting at position i. -/
def groupsMatch (s : List Char) : Nat → List CharGroup → Bool
  | _, [] => true
  | i, g :: rest => rangeAll s i g.1 g.2 && groupsMatch s (i + g.1) rest

/-- Try one fully-expanded regex alternative (a group sequence) at position
i, requiring a word boundary after it; returns the end position. -/
def tryGroups (s : List Char) (i : Nat) (gs : List CharGroup) : Option Nat :=
  if i + groupsLen gs ≤ s.length ∧ groupsMatch s i gs = true ∧
      isWordBoundary s (i + groupsLen gs) = true then
    some (i + groupsLen gs)
  else none

/-- A compiled pattern, as the list of its alternatives in the order the
backtracking engine tries them (optional pieces expanded greedily first).
Tries each alternative at position i after checking the leading \b. -/
def altsMatchAt (alts : List (List CharGroup)) (s : List Char) (i : Nat) : Option Nat :=
  if isWordBoundary s i then alts.findSome? (tryGroups s i) else none

/-- re.finditer semantics: scan positions left to right, emit non-overlapping
matches, resume after the end of each match. The fuel argument only bounds
the recursion; with the initial fuel of finditer it never runs out because
the scan position strictly increases. -/
def finditerAux (matchAt : List Char → Nat → Option Nat) (s : List Char) :
    Nat → Nat → List (Nat × Nat)
  | _, 0 => []
  | i, fuel + 1 =>
    if i < s.length then
      match matchAt s i with
      | some j =>
        if i < j then (i, j) :: finditerAux matchAt s j fuel
        else finditerAux matchAt s (i + 1) fuel
      | none => finditerAux matchAt s (i + 1) fuel
    else []

/-- All matches of a pattern in s, as half-open position pairs. -/
def finditer (matchAt : List Char → Nat → Option Nat) (s : List Char) : List (Nat × Nat) :=
  finditerAux matchAt s 0 (s.length + 1)

/-- The output unit shared by every recognizer (presidio RecognizerResult,
restricted to the fields the spec describes). The explanation field holds
the textual explanation; for the phone recognizer it carries the region
named in the AnalysisExplanation. -/
structure RecognizerResult where
  entity_type : String
  start : Nat
  stop : Nat
  score : ℚ
  explanation : String
deriving DecidableEq

/-- Shared facade shape of the five document recognizers: gate on the
requested entities, run the pattern over the text, uppercase each matched
substring, validate it, and emit a result with the fixed score. -/
def patternAnalyze (entity explanation : String) (score : ℚ)
    (alts : List (List CharGroup)) (valid : List Char → Bool)
    (text : List Char) (entities : List String) : List RecognizerResult :=
  if entity ∈ entities then
    (finditer (altsMatchAt alts) text).filterMap fun p =>
      if valid (((text.drop p.1).take (p.2 - p.1)).map pyUpper) then
        some { entity_type := entity, start := p.1, stop := p.2, score := score,
               explanation := explanation }
      else none
  else []

namespace AuMedicareProviderRecognizer

/-- Entity string of the Medicare Provider recognizer. -/
def ENTITY : String := "AU_MEDICAREPROVIDER"

/-- Source line 125: practice location characters, all valid characters
except I, O, S, Z. -/
def PRACTICE_LOCATION_CHARS : List Char := "0123456789ABCDEFGHJKLMNPQRTUVWXY".toList

/-- Source lines 128-129: the CHECK_DIGITS dict mapping a remainder to a
check digit; CHECK_DIGITS.get(r, '') is modelled as a possibly empty
one-character string. -/
def CHECK_DIGITS (r : Nat) : List Char :=
  match r with
  | 0 => ['Y'] | 1 => ['X'] | 2 => ['W'] | 3 => ['T'] | 4 => ['L'] | 5 => ['K']
  | 6 => ['J'] | 7 => ['H'] | 8 => ['F'] | 9 => ['B'] | 10 => ['A'] | _ => []

/-- Source lines 237-241: the char_to_num table built by looping over the
letter sequence starting at 10. -/
def plvLoopChars : List Char := "ABCDEFGHJKLMNPQRTUVWXY".toList

/-- Source lines 231-242: the practice location value. Digits map to their
value; letters map through char_to_num with default 0. -/
def plvValue (c : Char) : Nat :=
  if pyIsDigit c then digitVal c
  else
    match plvLoopChars.findIdx? (fun x => x == c) with
    | some k => 10 + k
    | none => 0

/-- Source lines 213-260, _calculate_check_digit: weighted sum of the six
stem digits and the PLV, remainder mod 11 looked up in CHECK_DIGITS. -/
def calculate_check_digit (provider_stem : List Char) (practice_location_char : Char) :
    List Char :=
  let d : Nat → Nat := fun i => digitVal (provider_stem.getD i ' ')
  CHECK_DIGITS ((d 0 * 3 + d 1 * 5 + d 2 * 8 + d 3 * 4 + d 4 * 2 + d 5 * 1 +
    plvValue practice_location_char * 6) % 11)

/-- Source lines 186-211, _is_valid_provider_number. -/
def is_valid_provider_number (provider_number : List Char) : Bool :=
  if provider_number.length ≠ 8 then false
  else
    let provider_stem := provider_number.take 6
    let practice_location_char := provider_number.getD 6 ' '
    let check_digit := provider_number.getD 7 ' '
    if ¬ pyStrIsDigit provider_stem then false
    else if practice_location_char ∉ PRACTICE_LOCATION_CHARS then false
    else decide (calculate_check_digit provider_stem practice_location_char = [check_digit])

/-- Source line 144: compiled pattern \b\d{6}[0-9A-Z][A-Z]\b with
re.IGNORECASE, as a single alternative of fixed-width groups. -/
def alts : List (List CharGroup) :=
  [[(6, pyIsDigit), (1, fun c => pyIsDigit c || pyIsAlpha c), (1, pyIsAlpha)]]

/-- Fixed textual explanation (source lines 262-268). -/
def EXPLANATION : String :=
  "Detected as Australian Medicare Provider Number with valid format and check digit"

/-- Source lines 152-184, analyze: gate on the requested entities, scan the
pattern, validate each uppercased candidate, emit results with score 0.9. -/
def analyze (text : List Char) (entities : List String) : List RecognizerResult :=
  patternAnalyze ENTITY EXPLANATION (9/10) alts is_valid_provider_number text entities

end AuMedicareProviderRecognizer

/-- Claim-side transcription, C1: the lookup table
0:Y 1:X 2:W 3:T 4:L 5:K 6:J 7:H 8:F 9:B 10:A as a character function. -/
def medicareTableChar (r : Nat) : Char :=
  match r with
  | 0 => 'Y' | 1 => 'X' | 2 => 'W' | 3 => 'T' | 4 => 'L' | 5 => 'K'
  | 6 => 'J' | 7 => 'H' | 8 => 'F' | 9 => 'B' | 10 => 'A' | _ => '?'

/-- Claim-side transcription, C1: PLV is the digit value for a digit and
10 plus the index in the sequence A,B,C,D,E,F,G,H,J,K,L,M,N,P,Q,R,T,U,V,W,X,Y
for a letter. -/
def medicareSpecPLV (c : Char) : Nat :=
  if pyIsDigit c then digitVal c
  else 10 + AuMedicareProviderRecognizer.plvLoopChars.findIdx (fun x => x == c)

/-- Claim-side transcription of C1, written from the claim wording: first
six characters are digits, seventh is in the 32-symbol location set, eighth
equals the table applied to (3 d1 + 5 d2 + 8 d3 + 4 d4 + 2 d5 + d6 + 6 PLV)
mod 11. -/
def medicareSpecValid (pn : List Char) : Prop :=
  (∀ c ∈ pn.take 6, pyIsDigit c = true) ∧
  pn.getD 6 ' ' ∈ AuMedicareProviderRecognizer.PRACTICE_LOCATION_CHARS ∧
  pn.getD 7 ' ' = medicareTableChar
    ((3 * digitVal (pn.getD 0 ' ') + 5 * digitVal (pn.getD 1 ' ') +
      8 * digitVal (pn.getD 2 ' ') + 4 * digitVal (pn.getD 3 ' ') +
      2 * digitVal (pn.getD 4 ' ') + digitVal (pn.getD 5 ' ') +
      6 * medicareSpecPLV (pn.getD 6 ' ')) % 11)


/-- The claim-side predicates are decidable, so witnesses can be checked by
evaluation. -/
instance medicareSpecValid_dec : DecidablePred medicareSpecValid := fun pn => by
  unfold medicareSpecValid; infer_instance

/-- The candidate rejected in the claim: computed check character is F. -/
def medicareRejectExample : List Char := "123456AY".toList

/-- A valid provider number with the same stem and location: check char F. -/
def medicareAcceptExample : List Char := "123456AF".toList

namespace AuDvaRecognizer

/-- Entity string of the DVA recognizer. -/
def ENTITY : String := "AU_DVA"

/-- Source line 294: valid state codes. -/
def STATE_CODES : List Char := "NVQWST".toList

/-- Last character of the work string is a letter (Python
work_string[-1].isalpha() guarded by nonemptiness). -/
def lastIsAlpha (l : List Char) : Bool :=
  match l.getLast? with
  | some c => pyIsAlpha c
  | none => false

/-- Source lines 418-427, continuation of the scanning loop once at least
one leading letter has been consumed: further letters extend the count and
anything else stops it. -/
def leadAlphaAux : List Char → Nat
  | [] => 0
  | c :: rest => if pyIsAlpha c then 1 + leadAlphaAux rest else 0

/-- Source lines 418-427: count of leading war-code characters. A leading
letter starts a letter run; a leading space counts as a length-1 war code;
anything else gives count 0. -/
def leadAlphaCount : List Char → Nat
  | [] => 0
  | c :: rest =>
    if pyIsAlpha c then 1 + leadAlphaAux rest
    else if c = ' ' then 1 else 0

/-- Source lines 391-446, _validate_war_code_pattern. -/
def validate_war_code_pattern (dva_number : List Char) : Bool :=
  let ws0 := dva_number.drop 1
  let has_dependent := decide (0 < ws0.length) && lastIsAlpha ws0 &&
    decide (3 < dva_number.length)
  let work_string :=
    if has_dependent && ws0.dropLast.any pyIsDigit then ws0.dropLast else ws0
  if work_string.length = 0 then false
  else
    let alpha_count := leadAlphaCount work_string
    let remaining := work_string.drop alpha_count
    if ¬ pyStrIsDigit remaining then false
    else if alpha_count = 1 then decide (1 ≤ remaining.length ∧ remaining.length ≤ 6)
    else if alpha_count = 2 then decide (1 ≤ remaining.length ∧ remaining.length ≤ 5)
    else if alpha_count = 3 then decide (1 ≤ remaining.length ∧ remaining.length ≤ 4)
    else false

/-- Source lines 353-389, _is_valid_dva_number. -/
def is_valid_dva_number (dva_number : List Char) : Bool :=
  if dva_number.length < 3 ∨ 9 < dva_number.length then false
  else if dva_number.getD 0 ' ' ∉ STATE_CODES then false
  else if dva_number.length = 9 ∧ ¬ pyIsAlpha (dva_number.getD 8 ' ') then false
  else if 1 < dva_number.length ∧
      ¬ (pyIsAlpha (dva_number.getD 1 ' ') = true ∨ dva_number.getD 1 ' ' = ' ') then false
  else if ¬ (dva_number.drop 1).any pyIsDigit then false
  else validate_war_code_pattern dva_number

/-- Character class of the DVA state code under re.IGNORECASE. -/
def stateClass (c : Char) : Bool := decide (pyUpper c ∈ STATE_CODES)

/-- Character class [A-Z ] under re.IGNORECASE. -/
def secondClass (c : Char) : Bool := pyIsAlpha c || decide (c = ' ')

/-- Character class [A-Z0-9] under re.IGNORECASE. -/
def bodyClass (c : Char) : Bool := pyIsAlpha c || pyIsDigit c

/-- The shapes of the source line 311 pattern
\b[NVQWST][A-Z ]?[A-Z0-9]{1,6}[A-Z]?\b in backtracking priority order:
optional second character greedily present first, body length 6 down to 1,
optional trailing letter greedily present first. -/
def shapes : List (Bool × Nat × Bool) :=
  [true, false].flatMap fun q1 =>
    [6, 5, 4, 3, 2, 1].flatMap fun k =>
      [true, false].map fun q2 => (q1, k, q2)

/-- Group sequence of one shape of the DVA pattern. -/
def shapeGroups (t : Bool × Nat × Bool) : List CharGroup :=
  [(1, stateClass)] ++ (if t.1 then [(1, secondClass)] else []) ++
    [(t.2.1, bodyClass)] ++ (if t.2.2 then [(1, pyIsAlpha)] else [])

/-- The compiled DVA pattern as ordered alternatives. -/
def alts : List (List CharGroup) := shapes.map shapeGroups

/-- Fixed textual explanation (source lines 448-454). -/
def EXPLANATION : String := "Detected as Australian DVA File Number with valid format"

/-- Source lines 319-351, analyze. -/
def analyze (text : List Char) (entities : List String) : List RecognizerResult :=
  patternAnalyze ENTITY EXPLANATION (9/10) alts is_valid_dva_number text entities

end AuDvaRecognizer

/-- Claim-side transcription, C3: the work string obtained by removing the
state code, and removing a trailing dependent letter when the tail ends in
a letter with at least one digit before it. -/
def dvaSpecWork (s : List Char) : List Char :=
  let tail := s.drop 1
  if AuDvaRecognizer.lastIsAlpha tail && tail.dropLast.any pyIsDigit then tail.dropLast
  else tail

/-- Claim-side transcription, C3: length of the leading run of letters, a
single leading space counting as length 1. -/
def dvaSpecLeadCount : List Char → Nat
  | [] => 0
  | c :: rest =>
    if c = ' ' then 1
    else if pyIsAlpha c then 1 + (rest.takeWhile pyIsAlpha).length else 0

/-- Claim-side transcription, C3: admissible war-code/numeric length pairs. -/
def dvaLenOk (a m : Nat) : Prop :=
  (a = 1 ∧ 1 ≤ m ∧ m ≤ 6) ∨ (a = 2 ∧ 1 ≤ m ∧ m ≤ 5) ∨ (a = 3 ∧ 1 ≤ m ∧ m ≤ 4)

/-- Claim-side transcription of C3, written from the claim wording. -/
def dvaSpecValid (s : List Char) : Prop :=
  3 ≤ s.length ∧ s.length ≤ 9 ∧
  s.getD 0 ' ' ∈ AuDvaRecognizer.STATE_CODES ∧
  (pyIsAlpha (s.getD 1 ' ') = true ∨ s.getD 1 ' ' = ' ') ∧
  (s.length = 9 → pyIsAlpha (s.getD 8 ' ') = true) ∧
  (∃ c ∈ s.drop 1, pyIsDigit c = true) ∧
  ((dvaSpecWork s).drop (dvaSpecLeadCount (dvaSpecWork s))).all pyIsDigit = true ∧
  dvaLenOk (dvaSpecLeadCount (dvaSpecWork s))
    ((dvaSpecWork s).drop (dvaSpecLeadCount (dvaSpecWork s))).length


instance dvaLenOk_dec (a m : Nat) : Decidable (dvaLenOk a m) := by
  unfold dvaLenOk; infer_instance

instance dvaSpecValid_dec : DecidablePred dvaSpecValid := fun s => by
  unfold dvaSpecValid; infer_instance

/-- The accepted example of the claim: N, space war code, six digits,
dependent letter K. -/
def dvaAcceptExample : List Char := "N 026027K".toList

namespace AuCrnRecognizer

/-- Entity string of the CRN recognizer. -/
def ENTITY : String := "AU_CRN"

/-- Source line 475: valid state codes. -/
def STATE_CODES : List Char := "234567".toList

/-- Source line 478: valid check digits. -/
def CHECK_DIGITS : List Char := "ABCHJKLSTVX".toList

/-- Source lines 481-484: REMAINDER_TO_CHECK_DIGIT with .get default '',
modelled as a possibly empty one-character string. -/
def REMAINDER_TO_CHECK_DIGIT (r : Nat) : List Char :=
  match r with
  | 10 => ['A'] | 9 => ['B'] | 8 => ['C'] | 7 => ['H'] | 6 => ['J'] | 5 => ['K']
  | 4 => ['L'] | 3 => ['S'] | 2 => ['T'] | 1 => ['V'] | 0 => ['X'] | _ => []

/-- Source line 560: re.sub removing every [\s-] character. -/
def clean_crn (crn : List Char) : List Char := crn.filter fun c => ¬ sepClass c

/-- Source lines 607-613: positional weighted sum over the 9-character
number part, position i (0-based) weighted 2 ^ (10 - (i + 1)), summing only
digit characters. -/
def crn_sum : List Char → Nat → Nat
  | [], _ => 0
  | c :: rest, i =>
    (if pyIsDigit c then digitVal c * 2 ^ (10 - (i + 1)) else 0) + crn_sum rest (i + 1)

/-- Source lines 593-617, _calculate_check_digit. -/
def calculate_check_digit (number_part : List Char) : List Char :=
  if number_part.length ≠ 9 then []
  else REMAINDER_TO_CHECK_DIGIT (crn_sum number_part 0 % 11)

/-- Source lines 553-591, _is_valid_crn, split into the cleaning step and
the body operating on the cleaned string. -/
def validClean (t : List Char) : Bool :=
  if t.length < 10 ∨ 11 < t.length then false
  else
    let state_code := t.getD 0 ' '
    let digits := (t.drop 1).take 8
    let check_digit := t.getD 9 ' '
    if state_code ∉ STATE_CODES then false
    else if ¬ pyStrIsDigit digits then false
    else if check_digit ∉ CHECK_DIGITS then false
    else if t.length = 11 ∧
        ¬ (pyIsAlpha (t.getD 10 ' ') = true ∨ t.getD 10 ' ' = ' ') then false
    else decide (calculate_check_digit (state_code :: digits) = [check_digit])

/-- Source lines 553-591, _is_valid_crn. -/
def is_valid_crn (crn : List Char) : Bool := validClean (clean_crn crn)

/-- Character class of the CRN state code. -/
def stateClass (c : Char) : Bool := decide (c ∈ STATE_CODES)

/-- Character class [ABCHJKLSTVX] under re.IGNORECASE. -/
def checkClass (c : Char) : Bool := decide (pyUpper c ∈ CHECK_DIGITS)

/-- Character class [A-Z ] under re.IGNORECASE. -/
def depClass (c : Char) : Bool := pyIsAlpha c || decide (c = ' ')

/-- The shapes of the source lines 508-511 pattern
\b[234567][\s-]?(?:\d{3}[\s-]?\d{3}[\s-]?\d{2}|\d{8})[ABCHJKLSTVX][A-Z ]?\b
in backtracking priority order: optional first separator greedily present,
grouped alternative before the plain 8-digit alternative, inner separators
greedy, optional dependant greedily present. Each shape is the tuple
(sep1, grouped, sep2, sep3, dependant). -/
def shapes : List (Bool × Bool × Bool × Bool × Bool) :=
  [true, false].flatMap fun s1 =>
    ([true, false].flatMap fun s2 =>
      [true, false].flatMap fun s3 =>
        [true, false].map fun d => (s1, true, s2, s3, d)) ++
    ([true, false].map fun d => (s1, false, false, false, d))

/-- Group sequence of one shape of the CRN pattern. -/
def shapeGroups (t : Bool × Bool × Bool × Bool × Bool) : List CharGroup :=
  [(1, stateClass)] ++ (if t.1 then [(1, sepClass)] else []) ++
    (if t.2.1 then
      [(3, pyIsDigit)] ++ (if t.2.2.1 then [(1, sepClass)] else []) ++
        [(3, pyIsDigit)] ++ (if t.2.2.2.1 then [(1, sepClass)] else []) ++
        [(2, pyIsDigit)]
     else [(8, pyIsDigit)]) ++
    [(1, checkClass)] ++ (if t.2.2.2.2 then [(1, depClass)] else [])

/-- The compiled CRN pattern as ordered alternatives. -/
def alts : List (List CharGroup) := shapes.map shapeGroups

/-- Fixed textual explanation (source lines 619-625). -/
def EXPLANATION : String :=
  "Detected as Australian Centrelink Customer Reference Number with valid format and check digit"

/-- Source lines 519-551, analyze. -/
def analyze (text : List Char) (entities : List String) : List RecognizerResult :=
  patternAnalyze ENTITY EXPLANATION (9/10) alts is_valid_crn text entities

end AuCrnRecognizer

/-- Claim-side transcription, C2: the lookup table
10:A 9:B 8:C 7:H 6:J 5:K 4:L 3:S 2:T 1:V 0:X as a character function. -/
def crnTableChar (r : Nat) : Char :=
  match r with
  | 10 => 'A' | 9 => 'B' | 8 => 'C' | 7 => 'H' | 6 => 'J' | 5 => 'K'
  | 4 => 'L' | 3 => 'S' | 2 => 'T' | 1 => 'V' | 0 => 'X' | _ => '?'

/-- Claim-side transcription, C2: sum over 1-based positions n of
digit_n * 2 ^ (10 - n). -/
def crnSpecSum : List Char → Nat → Nat
  | [], _ => 0
  | c :: rest, n => digitVal c * 2 ^ (10 - n) + crnSpecSum rest (n + 1)

/-- Claim-side transcription of C2, written from the claim wording, as a
predicate on the cleaned string. -/
def crnSpecValid (t : List Char) : Prop :=
  (t.length = 10 ∨ t.length = 11) ∧
  t.getD 0 ' ' ∈ AuCrnRecognizer.STATE_CODES ∧
  (∀ c ∈ (t.drop 1).take 8, pyIsDigit c = true) ∧
  (t.length = 11 → (pyIsAlpha (t.getD 10 ' ') = true ∨ t.getD 10 ' ' = ' ')) ∧
  t.getD 9 ' ' = crnTableChar (crnSpecSum (t.take 9) 1 % 11)


instance crnSpecValid_dec : DecidablePred crnSpecValid := fun t => by
  unfold crnSpecValid; infer_instance

/-- The accepted CRN example of the claim. -/
def crnAcceptExample : List Char := "307111942H".toList

/-- The accepted CRN example with an alphabetic dependant appended. -/
def crnDepExample : List Char := "307111942HA".toList

/-- The accepted CRN example written with a trailing space as its dependant
indicator. -/
def crnSpaceDepExample : List Char := "307111942H ".toList

namespace AuPassportRecognizer

/-- Entity string of the passport recognizer. -/
def ENTITY : String := "AU_PASSPORT"

/-- Source line 644: valid passport letters, excluding O, S, Q, I. -/
def VALID_LETTERS : List Char := "ABCDEFGHJKLMNPRTUVWXYZ".toList

/-- Source lines 704-731, _is_valid_passport_number. -/
def is_valid_passport_number (passport_number : List Char) : Bool :=
  if passport_number.length < 8 ∨ 9 < passport_number.length then false
  else
    let letters :=
      if passport_number.length = 8 then passport_number.take 1 else passport_number.take 2
    let digits :=
      if passport_number.length = 8 then passport_number.drop 1 else passport_number.drop 2
    if ¬ letters.all (fun c => decide (c ∈ VALID_LETTERS)) then false
    else if digits.length ≠ 7 ∨ ¬ pyStrIsDigit digits then false
    else true

/-- The source line 660 pattern \b[A-Za-z]{1,2}\d{7}\b as ordered
alternatives: the greedy {1,2} tries two letters before one. -/
def alts : List (List CharGroup) :=
  [[(2, pyIsAlpha), (7, pyIsDigit)], [(1, pyIsAlpha), (7, pyIsDigit)]]

/-- Fixed textual explanation (source lines 733-739). -/
def EXPLANATION : String :=
  "Detected as Australian passport number with valid format"

/-- Source lines 668-702, analyze. -/
def analyze (text : List Char) (entities : List String) : List RecognizerResult :=
  patternAnalyze ENTITY EXPLANATION (9/10) alts is_valid_passport_number text entities

end AuPassportRecognizer

/-- Claim-side transcription of C5, written from the claim wording: length
8 or 9, the letter prefix (1 letter at length 8, 2 letters at length 9) in
the 22-symbol alphabet, the remaining part exactly 7 digits. -/
def passportSpecValid (p : List Char) : Prop :=
  (p.length = 8 ∧ (∀ c ∈ p.take 1, c ∈ AuPassportRecognizer.VALID_LETTERS) ∧
    (∀ c ∈ p.drop 1, pyIsDigit c = true)) ∨
  (p.length = 9 ∧ (∀ c ∈ p.take 2, c ∈ AuPassportRecognizer.VALID_LETTERS) ∧
    (∀ c ∈ p.drop 2, pyIsDigit c = true))


instance passportSpecValid_dec : DecidablePred passportSpecValid := fun p => by
  unfold passportSpecValid; infer_instance

/-- The rejected passport example of the claim: excluded letter O. -/
def passportRejectExample : List Char := "O1234567".toList

/-- The accepted passport example of the claim. -/
def passportAcceptExample : List Char := "PA1234567".toList

namespace AuDriversLicenseRecognizer

/-- Entity string of the driver licence recognizer. -/
def ENTITY : String := "AU_DRIVERSLICENSE"

/-- The literal sequence 123456 rejected at length 6 (source line 874). -/
def seq123456 : List Char := "123456".toList

/-- The literal sequence 654321 rejected at length 6 (source line 874). -/
def seq654321 : List Char := "654321".toList

/-- Source line 922: perfect ascending digit sequence, consecutive values
differing by +1 as Python integers. -/
def isAscending : List Char → Bool
  | [] => true
  | [_] => true
  | a :: b :: rest =>
    decide ((digitVal b : Int) = (digitVal a : Int) + 1) && isAscending (b :: rest)

/-- Source line 923: perfect descending digit sequence, consecutive values
differing by -1 as Python integers. -/
def isDescending : List Char → Bool
  | [] => true
  | [_] => true
  | a :: b :: rest =>
    decide ((digitVal b : Int) = (digitVal a : Int) - 1) && isDescending (b :: rest)

/-- Number of distinct characters, Python len(set(number)). -/
def distinctCount (n : List Char) : Nat := n.dedup.length

/-- Source lines 932-935: count of the most frequent character (max over
the per-character counts of the digit_counts dict). -/
def maxDigitCount (n : List Char) : Nat :=
  (n.dedup.map fun c => n.count c).foldr max 0

/-- Source lines 908-940, _is_too_uniform. The Python comparison
max_count / len(number) > 0.8 is computed in floating point; for the
reachable lengths 8, 9, 10 it coincides with the exact rational comparison
5 * max_count > 4 * len (at the only boundary point, 8 / 10, the float
quotient equals the float literal 0.8, so both comparisons are false). -/
def is_too_uniform (number : List Char) : Bool :=
  if distinctCount number = 1 then true
  else if number.length ≤ 7 ∧ 6 ≤ number.length ∧
      (isAscending number = true ∨ isDescending number = true) then true
  else if distinctCount number ≤ 2 ∧ 8 ≤ number.length ∧
      4 * number.length < 5 * maxDigitCount number then true
  else false

/-- Source lines 854-881, _is_numeric_format. -/
def is_numeric_format (clean_number : List Char) : Bool :=
  if ¬ pyStrIsDigit clean_number then false
  else if clean_number.length < 6 ∨ 10 < clean_number.length then false
  else if clean_number.length ≤ 7 then
    if is_too_uniform clean_number then false
    else if clean_number.length = 6 ∧
        (clean_number = seq123456 ∨ clean_number = seq654321) then false
    else true
  else if is_too_uniform clean_number then false
  else true

/-- Source lines 883-906, _is_alphanumeric_format. -/
def is_alphanumeric_format (clean_number : List Char) : Bool :=
  (decide (clean_number.length = 6) && pyIsAlpha (clean_number.getD 0 ' ') &&
    pyStrIsDigit (clean_number.drop 1)) ||
  (decide (clean_number.length = 6) && pyStrIsAlpha (clean_number.take 2) &&
    pyStrIsDigit (clean_number.drop 2)) ||
  (decide (clean_number.length = 6) && pyStrIsDigit (clean_number.take 4) &&
    pyStrIsAlpha (clean_number.drop 4))

/-- Source lines 833-852, _is_valid_license_number. -/
def is_valid_license_number (license_number : List Char) : Bool :=
  let clean_number := license_number.filter fun c => ¬ sepClass c
  if clean_number.length < 6 ∨ 10 < clean_number.length then false
  else is_numeric_format clean_number || is_alphanumeric_format clean_number

/-- The source lines 779-789 pattern as ordered alternatives: the five
fixed shapes in source order, then the greedy \d{6,10} from 10 digits down
to 6. -/
def alts : List (List CharGroup) :=
  [[(1, pyIsAlpha), (5, pyIsDigit)],
   [(2, pyIsAlpha), (4, pyIsDigit)],
   [(4, pyIsDigit), (2, pyIsAlpha)],
   [(3, pyIsDigit), (1, sepClass), (3, pyIsDigit), (1, sepClass), (3, pyIsDigit)],
   [(1, pyIsDigit), (1, sepClass), (3, pyIsDigit), (1, sepClass), (3, pyIsDigit),
    (1, sepClass), (3, pyIsDigit)],
   [(10, pyIsDigit)], [(9, pyIsDigit)], [(8, pyIsDigit)], [(7, pyIsDigit)],
   [(6, pyIsDigit)]]

/-- Fixed textual explanation (source lines 942-948). -/
def EXPLANATION : String :=
  "Detected as Australian driver license number with valid state-specific format"

/-- Source lines 797-831, analyze, with the fixed score 0.8. -/
def analyze (text : List Char) (entities : List String) : List RecognizerResult :=
  patternAnalyze ENTITY EXPLANATION (8/10) alts is_valid_license_number text entities

end AuDriversLicenseRecognizer

/-- Claim-side transcription of the C6 uniformity notion, written from the
claim wording: all characters identical, or length at most 7 and a perfect
ascending or descending digit sequence, or length at least 8 with at most
2 distinct digits whose most frequent digit exceeds 80 percent of the
characters. -/
def licenseSpecTooUniform (n : List Char) : Prop :=
  (∀ c ∈ n, c = n.getD 0 ' ') ∨
  (n.length ≤ 7 ∧ (AuDriversLicenseRecognizer.isAscending n = true ∨
    AuDriversLicenseRecognizer.isDescending n = true)) ∨
  (8 ≤ n.length ∧ AuDriversLicenseRecognizer.distinctCount n ≤ 2 ∧
    4 * n.length < 5 * AuDriversLicenseRecognizer.maxDigitCount n)


instance licenseSpecTooUniform_dec : DecidablePred licenseSpecTooUniform := fun n => by
  unfold licenseSpecTooUniform; infer_instance

/-- The all-identical example of the claim. -/
def licenseAllOnes : List Char := "11111111".toList

/-- A plausible licence number used to witness acceptance. -/
def licenseAcceptExample : List Char := "30711194".toList

namespace EnhancedPhoneRecognizer

/-- Entity string of the phone recognizer. -/
def PHONE_ENTITY : String := "PHONE_NUMBER"

/-- Source line 29: the fixed phone score. -/
def SCORE : ℚ := 7/10

/-- A match produced by the external phonenumbers.PhoneNumberMatcher:
half-open offsets into the text. The matcher itself is an external
collaborator and is passed in as a parameter. -/
structure PhoneMatch where
  mstart : Nat
  mend : Nat
deriving DecidableEq

/-- The matched substring text[match.start:match.end]. -/
def matchedSub (text : List Char) (m : PhoneMatch) : List Char :=
  (text.drop m.mstart).take (m.mend - m.mstart)

/-- Source lines 87-100, _get_recognizer_result: a PHONE_NUMBER result over
the match span with the fixed score; the explanation names the region
(source lines 102-108). -/
def get_recognizer_result (m : PhoneMatch) (region : String) : RecognizerResult :=
  { entity_type := PHONE_ENTITY, start := m.mstart, stop := m.mend, score := SCORE,
    explanation := region }

/-- Modelled from the spec: presidio EntityRecognizer.remove_duplicates
(source line 85 calls it; its code is not under src/). The spec states the
dedup policy: remove duplicate spans, first seen wins, tie on identical
start and end. -/
def remove_duplicates_aux (seen : List (Nat × Nat)) :
    List RecognizerResult → List RecognizerResult
  | [] => []
  | r :: rest =>
    if (r.start, r.stop) ∈ seen then remove_duplicates_aux seen rest
    else r :: remove_duplicates_aux ((r.start, r.stop) :: seen) rest

/-- Modelled from the spec: dedup by identical span, first seen wins. -/
def remove_duplicates (l : List RecognizerResult) : List RecognizerResult :=
  remove_duplicates_aux [] l

/-- Source lines 69-83, the result accumulation of analyze: for each
configured region, for each match the external matcher finds, re-parse the
matched substring to obtain the actual region (parseRegion models
phonenumbers.parse followed by region_code_for_number, returning none when
parse raises NumberParseException); on failure fall back to the configured
region. Both branches emit a result. -/
def emitted (matcher : List Char → String → List PhoneMatch)
    (parseRegion : List Char → Option String) (regions : List String)
    (text : List Char) : List RecognizerResult :=
  regions.flatMap fun region =>
    (matcher text region).map fun m =>
      match parseRegion (matchedSub text m) with
      | some region_code => get_recognizer_result m region_code
      | none => get_recognizer_result m region

/-- Source lines 57-85, analyze. The entities parameter is received but
never consulted by the source. -/
def analyze (matcher : List Char → String → List PhoneMatch)
    (parseRegion : List Char → Option String) (regions : List String)
    (text : List Char) (entities : List String) : List RecognizerResult :=
  remove_duplicates (emitted matcher parseRegion regions text)

end EnhancedPhoneRecognizer

/-- A demonstration text with ten digit characters. -/
def demoText : List Char := "0412345678".toList

/-- A demonstration phone match covering the first four characters. -/
def demoMatch : EnhancedPhoneRecognizer.PhoneMatch := { mstart := 0, mend := 4 }

/-- A demonstration external matcher returning one fixed match. -/
def demoMatcher : List Char → String → List EnhancedPhoneRecognizer.PhoneMatch :=
  fun _ _ => [demoMatch]

/-- A demonstration external parser that always fails to parse
(NumberParseException on every candidate). -/
def demoParse : List Char → Option String := fun _ => none

/-- The AU region string. -/
def regionAU : String := "AU"

/-- A demonstration single-region configuration. -/
def demoRegions : List String := [regionAU]

/-- The result the demonstration configuration emits. -/
def phoneDemoResult : RecognizerResult :=
  EnhancedPhoneRecognizer.get_recognizer_result demoMatch regionAU

/-! Helper lemmas. -/

theorem pyStrIsDigit_iff (l : List Char) :
    pyStrIsDigit l = true ↔ l ≠ [] ∧ ∀ c ∈ l, pyIsDigit c = true := by
  simp [pyStrIsDigit, List.all_eq_true]

theorem pyIsDigit_not_alpha_space {c : Char} (h : pyIsDigit c = true) :
    pyIsAlpha c = false ∧ c ≠ ' ' := by
  simp only [pyIsDigit, decide_eq_true_eq] at h
  constructor
  · simp only [pyIsAlpha, decide_eq_false_iff_not]
    omega
  · intro hc
    subst hc
    simp at h

theorem getD_take_lt {α : Type} (l : List α) (n i : Nat) (d : α) (h : i < n) :
    (l.take n).getD i d = l.getD i d := by
  induction l generalizing n i with
  | nil => simp
  | cons a t ih =>
    cases n with
    | zero => omega
    | succ m =>
      cases i with
      | zero => simp
      | succ k =>
        simp only [List.take_succ_cons, List.getD_cons_succ]
        exact ih m k (by omega)

theorem medicare_plv_agree :
    ∀ c ∈ AuMedicareProviderRecognizer.PRACTICE_LOCATION_CHARS,
      AuMedicareProviderRecognizer.plvValue c = medicareSpecPLV c := by decide

theorem medicare_lookup_eq : ∀ r, r < 11 →
    AuMedicareProviderRecognizer.CHECK_DIGITS r = [medicareTableChar r] := by decide

/-- Claim C1: Medicare Provider validation. For every 8-character candidate
string, _is_valid_provider_number accepts exactly when the first six
characters are digits, the seventh is in the 32-symbol location set, and
the eighth equals the table 0:Y 1:X 2:W 3:T 4:L 5:K 6:J 7:H 8:F 9:B 10:A
applied to (3 d1 + 5 d2 + 8 d3 + 4 d4 + 2 d5 + d6 + 6 PLV) mod 11; in
particular 123456AY is rejected. -/
theorem C1_medicare_provider_validation :
    (∀ pn : List Char, pn.length = 8 →
      (AuMedicareProviderRecognizer.is_valid_provider_number pn = true ↔
        medicareSpecValid pn)) ∧
    AuMedicareProviderRecognizer.is_valid_provider_number medicareRejectExample = false := by
  constructor
  · intro pn hlen
    have h8 : ¬ pn.length ≠ 8 := by omega
    rw [AuMedicareProviderRecognizer.is_valid_provider_number, if_neg h8]
    dsimp only
    by_cases hd : pyStrIsDigit (pn.take 6) = true
    · rw [if_neg (not_not_intro hd)]
      by_cases hm : pn.getD 6 ' ' ∈ AuMedicareProviderRecognizer.PRACTICE_LOCATION_CHARS
      · rw [if_neg (not_not_intro hm)]
        have hdig : ∀ c ∈ pn.take 6, pyIsDigit c = true := ((pyStrIsDigit_iff _).mp hd).2
        rw [decide_eq_true_iff]
        rw [AuMedicareProviderRecognizer.calculate_check_digit]
        dsimp only
        rw [medicare_plv_agree _ hm]
        rw [getD_take_lt _ _ _ _ (by omega), getD_take_lt _ _ _ _ (by omega),
          getD_take_lt _ _ _ _ (by omega), getD_take_lt _ _ _ _ (by omega),
          getD_take_lt _ _ _ _ (by omega), getD_take_lt _ _ _ _ (by omega)]
        have hsum : digitVal (pn.getD 0 ' ') * 3 + digitVal (pn.getD 1 ' ') * 5 +
            digitVal (pn.getD 2 ' ') * 8 + digitVal (pn.getD 3 ' ') * 4 +
            digitVal (pn.getD 4 ' ') * 2 + digitVal (pn.getD 5 ' ') * 1 +
            medicareSpecPLV (pn.getD 6 ' ') * 6 =
            3 * digitVal (pn.getD 0 ' ') + 5 * digitVal (pn.getD 1 ' ') +
            8 * digitVal (pn.getD 2 ' ') + 4 * digitVal (pn.getD 3 ' ') +
            2 * digitVal (pn.getD 4 ' ') + digitVal (pn.getD 5 ' ') +
            6 * medicareSpecPLV (pn.getD 6 ' ') := by ring
        rw [hsum]
        rw [medicare_lookup_eq _ (Nat.mod_lt _ (by norm_num))]
        unfold medicareSpecValid
        simp only [List.cons.injEq, and_true]
        constructor
        · intro h
          exact ⟨hdig, hm, h.symm⟩
        · intro h
          exact h.2.2.symm
      · rw [if_pos hm]
        exact iff_of_false (by simp) fun hspec => hm hspec.2.1
    · rw [if_pos hd]
      refine iff_of_false (by simp) fun hspec => hd ?_
      rw [pyStrIsDigit_iff]
      refine ⟨fun hnil => ?_, hspec.1⟩
      have hl := congrArg List.length hnil
      simp [hlen] at hl
  · decide

theorem C1_medicare_provider_validation_witness :
    AuMedicareProviderRecognizer.is_valid_provider_number medicareAcceptExample = true :=
  (C1_medicare_provider_validation.1 medicareAcceptExample (by decide)).mpr (by decide)

theorem iteFalseChain {c : Prop} [Decidable c] (b : Bool) :
    ((if c then false else b) = true) ↔ ¬c ∧ b = true := by
  split_ifs with h <;> simp [h]

/-- Claim C5: Passport validation. _is_valid_passport_number accepts
exactly the strings of length 8 or 9 whose letter prefix (1 letter at
length 8, 2 at length 9) uses only the 22-letter alphabet excluding
O, S, Q, I and whose remainder is exactly 7 digits; O1234567 is rejected
and PA1234567 accepted. -/
theorem C5_passport_validation :
    (∀ p : List Char,
      AuPassportRecognizer.is_valid_passport_number p = true ↔ passportSpecValid p) ∧
    AuPassportRecognizer.is_valid_passport_number passportRejectExample = false ∧
    AuPassportRecognizer.is_valid_passport_number passportAcceptExample = true := by
  refine ⟨fun p => ?_, by decide, by decide⟩
  rw [AuPassportRecognizer.is_valid_passport_number]
  dsimp only
  simp only [iteFalseChain, and_true, not_or, not_not, not_lt, ne_eq,
    pyStrIsDigit_iff, List.all_eq_true, decide_eq_true_eq]
  by_cases h8 : p.length = 8
  · simp only [if_pos h8]
    unfold passportSpecValid
    constructor
    · rintro ⟨-, hlet, hlen7, -, hdig⟩
      exact Or.inl ⟨h8, hlet, hdig⟩
    · rintro (⟨-, hlet, hdig⟩ | ⟨h9, -, -⟩)
      · refine ⟨⟨by omega, by omega⟩, hlet, ?_, ?_, hdig⟩
        · rw [List.length_drop]; omega
        · intro hnil
          have hl := congrArg List.length hnil
          rw [List.length_drop] at hl
          simp only [List.length_nil] at hl
          omega
      · omega
  · simp only [if_neg h8]
    unfold passportSpecValid
    constructor
    · rintro ⟨⟨hge, hle⟩, hlet, hlen7, -, hdig⟩
      have h9 : p.length = 9 := by omega
      exact Or.inr ⟨h9, hlet, hdig⟩
    · rintro (⟨h8a, -, -⟩ | ⟨h9, hlet, hdig⟩)
      · exact absurd h8a h8
      · refine ⟨⟨by omega, by omega⟩, hlet, ?_, ?_, hdig⟩
        · rw [List.length_drop]; omega
        · intro hnil
          have hl := congrArg List.length hnil
          rw [List.length_drop] at hl
          simp only [List.length_nil] at hl
          omega

theorem crn_state_digit : ∀ c ∈ AuCrnRecognizer.STATE_CODES, pyIsDigit c = true := by decide

theorem crn_lookup_eq : ∀ r, r < 11 →
    AuCrnRecognizer.REMAINDER_TO_CHECK_DIGIT r = [crnTableChar r] := by decide

theorem crn_table_mem : ∀ r, r < 11 → crnTableChar r ∈ AuCrnRecognizer.CHECK_DIGITS := by
  decide

theorem crn_sum_eq_spec : ∀ (l : List Char) (i : Nat), (∀ c ∈ l, pyIsDigit c = true) →
    AuCrnRecognizer.crn_sum l i = crnSpecSum l (i + 1) := by
  intro l
  induction l with
  | nil => intro i _; rfl
  | cons c rest ih =>
    intro i h
    rw [AuCrnRecognizer.crn_sum, crnSpecSum]
    rw [if_pos (h c (by simp))]
    rw [ih (i + 1) (fun x hx => h x (by simp [hx]))]

theorem crn_validClean_iff (t : List Char) :
    AuCrnRecognizer.validClean t = true ↔ crnSpecValid t := by
  rw [AuCrnRecognizer.validClean]
  dsimp only
  by_cases hlen : t.length < 10 ∨ 11 < t.length
  · rw [if_pos hlen]
    refine iff_of_false (by simp) fun hspec => ?_
    rcases hspec.1 with h | h <;> omega
  · rw [if_neg hlen]
    push_neg at hlen
    obtain ⟨hl10, hl11⟩ := hlen
    rcases t with _ | ⟨c0, t1⟩
    · simp at hl10
    simp only [List.length_cons] at hl10 hl11
    have e0 : (c0 :: t1).getD 0 ' ' = c0 := rfl
    have e9 : (c0 :: t1).getD 9 ' ' = t1.getD 8 ' ' := rfl
    have e10 : (c0 :: t1).getD 10 ' ' = t1.getD 9 ' ' := rfl
    have edrop : (c0 :: t1).drop 1 = t1 := rfl
    have etake : (c0 :: t1).take 9 = c0 :: t1.take 8 := rfl
    rw [e0, e9, e10, edrop]
    simp only [List.length_cons]
    have hspec_unfold : crnSpecValid (c0 :: t1) ↔
        ((t1.length + 1 = 10 ∨ t1.length + 1 = 11) ∧ c0 ∈ AuCrnRecognizer.STATE_CODES ∧
          (∀ c ∈ t1.take 8, pyIsDigit c = true) ∧
          (t1.length + 1 = 11 → (pyIsAlpha (t1.getD 9 ' ') = true ∨ t1.getD 9 ' ' = ' ')) ∧
          t1.getD 8 ' ' = crnTableChar (crnSpecSum (c0 :: t1.take 8) 1 % 11)) := by
      unfold crnSpecValid
      rw [e0, e9, e10, edrop, etake]
      simp only [List.length_cons]
    rw [hspec_unfold]
    by_cases hm : c0 ∈ AuCrnRecognizer.STATE_CODES
    · rw [if_neg (not_not_intro hm)]
      by_cases hd : pyStrIsDigit (t1.take 8) = true
      · rw [if_neg (not_not_intro hd)]
        have hdig := ((pyStrIsDigit_iff _).mp hd).2
        have hc0 : pyIsDigit c0 = true := crn_state_digit _ hm
        have hlen9 : ¬ (c0 :: t1.take 8).length ≠ 9 := by
          simp only [List.length_cons, List.length_take, ne_eq]
          omega
        have key : AuCrnRecognizer.calculate_check_digit (c0 :: t1.take 8) =
            [t1.getD 8 ' '] ↔
            t1.getD 8 ' ' = crnTableChar (crnSpecSum (c0 :: t1.take 8) 1 % 11) := by
          rw [AuCrnRecognizer.calculate_check_digit, if_neg hlen9]
          have hall : ∀ c ∈ c0 :: t1.take 8, pyIsDigit c = true := by
            intro c hc
            rcases List.mem_cons.mp hc with rfl | hc
            · exact hc0
            · exact hdig c hc
          have hs := crn_sum_eq_spec (c0 :: t1.take 8) 0 hall
          rw [Nat.zero_add] at hs
          rw [hs, crn_lookup_eq _ (Nat.mod_lt _ (by norm_num))]
          simp only [List.cons.injEq, and_true]
          exact eq_comm
        by_cases hcm : t1.getD 8 ' ' ∈ AuCrnRecognizer.CHECK_DIGITS
        · rw [if_neg (not_not_intro hcm)]
          by_cases hdep : t1.length + 1 = 11 ∧
              ¬ (pyIsAlpha (t1.getD 9 ' ') = true ∨ t1.getD 9 ' ' = ' ')
          · rw [if_pos hdep]
            refine iff_of_false (by simp) fun hs => ?_
            exact hdep.2 (hs.2.2.2.1 hdep.1)
          · rw [if_neg hdep]
            rw [decide_eq_true_iff, key]
            constructor
            · intro h
              refine ⟨by omega, hm, hdig, ?_, h⟩
              intro h11
              by_contra hno
              exact hdep ⟨h11, hno⟩
            · intro h
              exact h.2.2.2.2
        · rw [if_pos hcm]
          refine iff_of_false (by simp) fun hs => ?_
          apply hcm
          rw [hs.2.2.2.2]
          exact crn_table_mem _ (Nat.mod_lt _ (by norm_num))
      · rw [if_pos hd]
        refine iff_of_false (by simp) fun hs => ?_
        apply hd
        rw [pyStrIsDigit_iff]
        refine ⟨?_, hs.2.2.1⟩
        intro hnil
        have hl := congrArg List.length hnil
        simp only [List.length_take, List.length_nil] at hl
        omega
    · rw [if_pos hm]
      exact iff_of_false (by simp) fun hs => hm hs.2.1

/-- Claim C2: CRN validation. After removing all spaces and hyphens,
_is_valid_crn accepts exactly when the cleaned length is 10 or 11, char 0
is a digit 2..7, chars 1..8 are eight digits, the optional char 10 is a
letter or a space, and char 9 equals the table
10:A 9:B 8:C 7:H 6:J 5:K 4:L 3:S 2:T 1:V 0:X applied to the weighted sum
mod 11 with weights 2 ^ (10 - n) at 1-based positions n over the state code
and eight digits; in particular 307111942H is accepted. -/
theorem C2_crn_validation :
    (∀ s : List Char,
      AuCrnRecognizer.is_valid_crn s = true ↔ crnSpecValid (AuCrnRecognizer.clean_crn s)) ∧
    AuCrnRecognizer.is_valid_crn crnAcceptExample = true := by
  constructor
  · intro s
    rw [AuCrnRecognizer.is_valid_crn]
    exact crn_validClean_iff (AuCrnRecognizer.clean_crn s)
  · decide

theorem all_eq_head_dedup (l : List Char) (c : Char) (h : ∀ x ∈ l, x = c) (hne : l ≠ []) :
    l.dedup = [c] := by
  induction l with
  | nil => exact absurd rfl hne
  | cons a t ih =>
    have ha : a = c := h a (by simp)
    subst ha
    cases t with
    | nil => simp
    | cons b t2 =>
      have hb : b = a := h b (by simp)
      have hmem : a ∈ b :: t2 := by
        rw [hb]
        exact List.mem_cons_self _ _
      rw [List.dedup_cons_of_mem hmem]
      exact ih (fun x hx => h x (List.mem_cons_of_mem _ hx)) (by simp)

theorem distinctCount_one_iff (n : List Char) (hne : n ≠ []) :
    AuDriversLicenseRecognizer.distinctCount n = 1 ↔ ∀ c ∈ n, c = n.getD 0 ' ' := by
  unfold AuDriversLicenseRecognizer.distinctCount
  constructor
  · intro h
    obtain ⟨a, ha⟩ := List.length_eq_one.mp h
    intro c hc
    have hc2 : c = a := by
      have hm := List.mem_dedup.mpr hc
      rw [ha] at hm
      simpa using hm
    have hh : n.getD 0 ' ' = a := by
      rcases n with _ | ⟨x, t⟩
      · exact absurd rfl hne
      · have hx : x ∈ (x :: t).dedup := List.mem_dedup.mpr (by simp)
        rw [ha] at hx
        simpa using hx
    rw [hc2, hh]
  · intro h
    rw [all_eq_head_dedup n (n.getD 0 ' ') h hne]
    rfl

theorem too_uniform_iff (n : List Char) (h6 : 6 ≤ n.length) :
    AuDriversLicenseRecognizer.is_too_uniform n = true ↔ licenseSpecTooUniform n := by
  have hne : n ≠ [] := by
    intro h
    subst h
    simp at h6
  rw [AuDriversLicenseRecognizer.is_too_uniform]
  by_cases h1 : AuDriversLicenseRecognizer.distinctCount n = 1
  · rw [if_pos h1]
    exact iff_of_true rfl (Or.inl ((distinctCount_one_iff n hne).mp h1))
  · rw [if_neg h1]
    by_cases h2 : n.length ≤ 7 ∧ 6 ≤ n.length ∧
        (AuDriversLicenseRecognizer.isAscending n = true ∨
          AuDriversLicenseRecognizer.isDescending n = true)
    · rw [if_pos h2]
      exact iff_of_true rfl (Or.inr (Or.inl ⟨h2.1, h2.2.2⟩))
    · rw [if_neg h2]
      by_cases h3 : AuDriversLicenseRecognizer.distinctCount n ≤ 2 ∧ 8 ≤ n.length ∧
          4 * n.length < 5 * AuDriversLicenseRecognizer.maxDigitCount n
      · rw [if_pos h3]
        exact iff_of_true rfl (Or.inr (Or.inr ⟨h3.2.1, h3.1, h3.2.2⟩))
      · rw [if_neg h3]
        refine iff_of_false (by simp) fun hs => ?_
        rcases hs with hall | ⟨hl7, hseq⟩ | ⟨hl8, hd2, hmax⟩
        · exact h1 ((distinctCount_one_iff n hne).mpr hall)
        · exact h2 ⟨hl7, h6, hseq⟩
        · exact h3 ⟨hd2, hl8, hmax⟩

/-- Claim C6: Driver licence uniformity. Over all-digit cleaned candidates
of length 6 to 10, the numeric-format check accepts exactly the strings
that are not too uniform (all identical; length at most 7 and perfectly
ascending or descending; length at least 8 with at most two distinct
digits, the most frequent exceeding 80 percent) and, at length 6, are not
the literals 123456 or 654321; 11111111 is always rejected. -/
theorem C6_license_uniformity :
    (∀ n : List Char, n.all pyIsDigit = true → 6 ≤ n.length → n.length ≤ 10 →
      (AuDriversLicenseRecognizer.is_numeric_format n = true ↔
        (¬ licenseSpecTooUniform n ∧
          (n.length = 6 → n ≠ AuDriversLicenseRecognizer.seq123456 ∧
            n ≠ AuDriversLicenseRecognizer.seq654321)))) ∧
    AuDriversLicenseRecognizer.is_numeric_format licenseAllOnes = false := by
  constructor
  · intro n hdig h6 h10
    have hne : n ≠ [] := by
      intro h
      subst h
      simp at h6
    have hsd : pyStrIsDigit n = true := by
      rw [pyStrIsDigit_iff]
      exact ⟨hne, List.all_eq_true.mp hdig⟩
    rw [AuDriversLicenseRecognizer.is_numeric_format, if_neg (not_not_intro hsd),
      if_neg (by omega : ¬(n.length < 6 ∨ 10 < n.length))]
    by_cases h7 : n.length ≤ 7
    · rw [if_pos h7]
      by_cases hu : AuDriversLicenseRecognizer.is_too_uniform n = true
      · rw [if_pos hu]
        refine iff_of_false (by simp) fun hs => hs.1 ((too_uniform_iff n h6).mp hu)
      · rw [if_neg hu]
        by_cases hlit : n.length = 6 ∧
            (n = AuDriversLicenseRecognizer.seq123456 ∨
              n = AuDriversLicenseRecognizer.seq654321)
        · rw [if_pos hlit]
          refine iff_of_false (by simp) fun hs => ?_
          rcases hlit.2 with h | h
          · exact (hs.2 hlit.1).1 h
          · exact (hs.2 hlit.1).2 h
        · rw [if_neg hlit]
          refine iff_of_true rfl ⟨fun hs => hu ((too_uniform_iff n h6).mpr hs), ?_⟩
          intro hl6
          constructor
          · intro heq
            exact hlit ⟨hl6, Or.inl heq⟩
          · intro heq
            exact hlit ⟨hl6, Or.inr heq⟩
    · rw [if_neg h7]
      by_cases hu : AuDriversLicenseRecognizer.is_too_uniform n = true
      · rw [if_pos hu]
        refine iff_of_false (by simp) fun hs => hs.1 ((too_uniform_iff n h6).mp hu)
      · rw [if_neg hu]
        refine iff_of_true rfl ⟨fun hs => hu ((too_uniform_iff n h6).mpr hs), ?_⟩
        intro hl6
        exact absurd hl6 (by omega)
  · decide

theorem C6_license_uniformity_witness :
    AuDriversLicenseRecognizer.is_numeric_format licenseAcceptExample = true :=
  (C6_license_uniformity.1 licenseAcceptExample (by decide) (by decide) (by decide)).mpr
    (by decide)

theorem leadAlphaAux_eq (l : List Char) :
    AuDvaRecognizer.leadAlphaAux l = (l.takeWhile pyIsAlpha).length := by
  induction l with
  | nil => rfl
  | cons c rest ih =>
    by_cases h : pyIsAlpha c = true
    · rw [AuDvaRecognizer.leadAlphaAux, if_pos h, List.takeWhile_cons, if_pos h,
        List.length_cons, ih]
      omega
    · rw [AuDvaRecognizer.leadAlphaAux, if_neg h, List.takeWhile_cons, if_neg h]
      rfl

theorem leadAlphaCount_eq_spec (l : List Char) :
    AuDvaRecognizer.leadAlphaCount l = dvaSpecLeadCount l := by
  cases l with
  | nil => rfl
  | cons c rest =>
    rw [AuDvaRecognizer.leadAlphaCount, dvaSpecLeadCount]
    by_cases ha : pyIsAlpha c = true
    · have hsp : ¬ c = ' ' := by
        intro h
        subst h
        exact absurd ha (by decide)
      rw [if_pos ha, if_neg hsp, if_pos ha, leadAlphaAux_eq]
    · rw [if_neg ha]
      by_cases hsp : c = ' '
      · rw [if_pos hsp, if_pos hsp]
      · rw [if_neg hsp, if_neg hsp, if_neg ha]

theorem lastIsAlpha_ne_nil {l : List Char} (h : AuDvaRecognizer.lastIsAlpha l = true) :
    l ≠ [] := by
  intro hnil
  subst hnil
  exact absurd h (by decide)

theorem validate_war_iff (s : List Char) (h3 : 3 ≤ s.length)
    (h2nd : pyIsAlpha (s.getD 1 ' ') = true ∨ s.getD 1 ' ' = ' ') :
    AuDvaRecognizer.validate_war_code_pattern s = true ↔
      (((dvaSpecWork s).drop (dvaSpecLeadCount (dvaSpecWork s))).all pyIsDigit = true ∧
        dvaLenOk (dvaSpecLeadCount (dvaSpecWork s))
          ((dvaSpecWork s).drop (dvaSpecLeadCount (dvaSpecWork s))).length) := by
  rw [AuDvaRecognizer.validate_war_code_pattern]
  dsimp only
  have hsel : ((decide (0 < (s.drop 1).length) && AuDvaRecognizer.lastIsAlpha (s.drop 1) &&
      decide (3 < s.length)) && (s.drop 1).dropLast.any pyIsDigit) =
      (AuDvaRecognizer.lastIsAlpha (s.drop 1) && (s.drop 1).dropLast.any pyIsDigit) := by
    by_cases hla : AuDvaRecognizer.lastIsAlpha (s.drop 1) = true
    · by_cases hany : (s.drop 1).dropLast.any pyIsDigit = true
      · have hpos : 0 < (s.drop 1).length :=
          List.length_pos.mpr (lastIsAlpha_ne_nil hla)
        have hgt3 : 3 < s.length := by
          by_contra hle
          push_neg at hle
          have hs3 : s.length = 3 := by omega
          obtain ⟨a, b, c, rfl⟩ := List.length_eq_three.mp hs3
          have hb : pyIsDigit b = true := by
            have he : (([a, b, c] : List Char).drop 1).dropLast = [b] := rfl
            rw [he] at hany
            simpa using hany
          have hcon := pyIsDigit_not_alpha_space hb
          have hgd : ([a, b, c] : List Char).getD 1 ' ' = b := rfl
          rcases h2nd with h | h
          · rw [hgd] at h
            rw [hcon.1] at h
            exact Bool.noConfusion h
          · rw [hgd] at h
            exact hcon.2 h
        rw [decide_eq_true hpos, decide_eq_true hgt3, hla, hany]
        rfl
      · have haf : (s.drop 1).dropLast.any pyIsDigit = false := by
          revert hany
          cases (s.drop 1).dropLast.any pyIsDigit <;> simp
        rw [haf]
        simp
    · have haf : AuDvaRecognizer.lastIsAlpha (s.drop 1) = false := by
        revert hla
        cases AuDvaRecognizer.lastIsAlpha (s.drop 1) <;> simp
      rw [haf]
      simp
  rw [hsel]
  rw [show (if (AuDvaRecognizer.lastIsAlpha (s.drop 1) &&
      (s.drop 1).dropLast.any pyIsDigit) = true then (s.drop 1).dropLast else s.drop 1) =
      dvaSpecWork s from rfl]
  rw [leadAlphaCount_eq_spec (dvaSpecWork s)]
  by_cases hw0 : (dvaSpecWork s).length = 0
  · rw [if_pos hw0]
    refine iff_of_false (by simp) fun hs => ?_
    have hwnil : dvaSpecWork s = [] := List.length_eq_zero.mp hw0
    rw [hwnil] at hs
    rcases hs.2 with ⟨h, -⟩ | ⟨h, -⟩ | ⟨h, -⟩ <;> simp [dvaSpecLeadCount] at h
  · rw [if_neg hw0]
    by_cases hpd : pyStrIsDigit ((dvaSpecWork s).drop (dvaSpecLeadCount (dvaSpecWork s))) = true
    · rw [if_neg (not_not_intro hpd)]
      obtain ⟨hrne, hrall⟩ := (pyStrIsDigit_iff _).mp hpd
      have hm1 : 1 ≤ ((dvaSpecWork s).drop (dvaSpecLeadCount (dvaSpecWork s))).length :=
        List.length_pos.mpr hrne
      have hallb : ((dvaSpecWork s).drop (dvaSpecLeadCount (dvaSpecWork s))).all pyIsDigit =
          true := List.all_eq_true.mpr hrall
      by_cases ha1 : dvaSpecLeadCount (dvaSpecWork s) = 1
      · rw [if_pos ha1, decide_eq_true_iff]
        constructor
        · intro h
          exact ⟨hallb, Or.inl ⟨ha1, h⟩⟩
        · rintro ⟨-, ⟨-, hm⟩ | ⟨ha2, -⟩ | ⟨ha3, -⟩⟩
          · exact hm
          · omega
          · omega
      · rw [if_neg ha1]
        by_cases ha2 : dvaSpecLeadCount (dvaSpecWork s) = 2
        · rw [if_pos ha2, decide_eq_true_iff]
          constructor
          · intro h
            exact ⟨hallb, Or.inr (Or.inl ⟨ha2, h⟩)⟩
          · rintro ⟨-, ⟨ha, -⟩ | ⟨-, hm⟩ | ⟨ha, -⟩⟩
            · omega
            · exact hm
            · omega
        · rw [if_neg ha2]
          by_cases ha3 : dvaSpecLeadCount (dvaSpecWork s) = 3
          · rw [if_pos ha3, decide_eq_true_iff]
            constructor
            · intro h
              exact ⟨hallb, Or.inr (Or.inr ⟨ha3, h⟩)⟩
            · rintro ⟨-, ⟨ha, -⟩ | ⟨ha, -⟩ | ⟨-, hm⟩⟩
              · omega
              · omega
              · exact hm
          · rw [if_neg ha3]
            refine iff_of_false (by simp) fun hs => ?_
            rcases hs.2 with ⟨ha, -⟩ | ⟨ha, -⟩ | ⟨ha, -⟩
            · exact ha1 ha
            · exact ha2 ha
            · exact ha3 ha
    · rw [if_pos hpd]
      refine iff_of_false (by simp) fun hs => hpd ?_
      rw [pyStrIsDigit_iff]
      refine ⟨?_, List.all_eq_true.mp hs.1⟩
      intro hnil
      rcases hs.2 with ⟨-, hm, -⟩ | ⟨-, hm, -⟩ | ⟨-, hm, -⟩ <;>
        (rw [hnil] at hm; simp at hm)

/-- Claim C3: DVA validation. _is_valid_dva_number accepts exactly when the
length is 3 to 9, the first character is a state code N, V, Q, W, S, T, the
second is a letter or a space, a length-9 string ends in a letter, some
digit appears at an index at least 1, and the war-code decomposition of the
claim (strip the state code, strip a trailing dependent letter when the
tail ends in a letter with a digit before it, count the leading letter run
or a single leading space) yields one of the admissible (alpha, numeric)
length pairs; strings of length 2 and 10 are always rejected and
N 026027K is accepted. -/
theorem C3_dva_validation :
    (∀ s : List Char, AuDvaRecognizer.is_valid_dva_number s = true ↔ dvaSpecValid s) ∧
    (∀ s : List Char, s.length = 2 → AuDvaRecognizer.is_valid_dva_number s = false) ∧
    (∀ s : List Char, s.length = 10 → AuDvaRecognizer.is_valid_dva_number s = false) ∧
    AuDvaRecognizer.is_valid_dva_number dvaAcceptExample = true := by
  refine ⟨fun s => ?_, fun s h => ?_, fun s h => ?_, by decide⟩
  · rw [AuDvaRecognizer.is_valid_dva_number]
    by_cases hlen : s.length < 3 ∨ 9 < s.length
    · rw [if_pos hlen]
      refine iff_of_false (by simp) fun hs => ?_
      obtain ⟨h1, h2, -⟩ := hs
      omega
    · rw [if_neg hlen]
      push_neg at hlen
      by_cases hst : s.getD 0 ' ' ∈ AuDvaRecognizer.STATE_CODES
      · rw [if_neg (not_not_intro hst)]
        by_cases h9 : s.length = 9 ∧ ¬ pyIsAlpha (s.getD 8 ' ') = true
        · rw [if_pos h9]
          refine iff_of_false (by simp) fun hs => h9.2 (hs.2.2.2.2.1 h9.1)
        · rw [if_neg h9]
          by_cases h2c : 1 < s.length ∧
              ¬ (pyIsAlpha (s.getD 1 ' ') = true ∨ s.getD 1 ' ' = ' ')
          · rw [if_pos h2c]
            refine iff_of_false (by simp) fun hs => h2c.2 hs.2.2.2.1
          · rw [if_neg h2c]
            have h2nd : pyIsAlpha (s.getD 1 ' ') = true ∨ s.getD 1 ' ' = ' ' := by
              by_contra hno
              exact h2c ⟨by omega, hno⟩
            by_cases hdg : (s.drop 1).any pyIsDigit = true
            · rw [if_neg (not_not_intro hdg)]
              rw [validate_war_iff s hlen.1 h2nd]
              unfold dvaSpecValid
              constructor
              · rintro ⟨hall, hok⟩
                refine ⟨hlen.1, hlen.2, hst, h2nd, ?_, ?_, hall, hok⟩
                · intro h9l
                  by_contra hna
                  exact h9 ⟨h9l, hna⟩
                · simpa [List.any_eq_true] using hdg
              · rintro ⟨-, -, -, -, -, -, hall, hok⟩
                exact ⟨hall, hok⟩
            · rw [if_pos hdg]
              refine iff_of_false (by simp) fun hs => hdg ?_
              rw [List.any_eq_true]
              exact hs.2.2.2.2.2.1
      · rw [if_pos hst]
        exact iff_of_false (by simp) fun hs => hst hs.2.2.1
  · rw [AuDvaRecognizer.is_valid_dva_number,
      if_pos (by omega : s.length < 3 ∨ 9 < s.length)]
  · rw [AuDvaRecognizer.is_valid_dva_number,
      if_pos (by omega : s.length < 3 ∨ 9 < s.length)]

theorem C3_dva_validation_witness :
    AuDvaRecognizer.is_valid_dva_number (['N', '1'] : List Char) = false ∧
    dvaSpecValid dvaAcceptExample :=
  ⟨C3_dva_validation.2.1 ['N', '1'] (by decide),
    (C3_dva_validation.1 dvaAcceptExample).mp (by decide)⟩

theorem rd_aux_subset (l : List RecognizerResult) :
    ∀ seen x, x ∈ EnhancedPhoneRecognizer.remove_duplicates_aux seen l → x ∈ l := by
  induction l with
  | nil =>
    intro seen x h
    exact absurd h (by simp [EnhancedPhoneRecognizer.remove_duplicates_aux])
  | cons r rest ih =>
    intro seen x h
    rw [EnhancedPhoneRecognizer.remove_duplicates_aux] at h
    by_cases hs : (r.start, r.stop) ∈ seen
    · rw [if_pos hs] at h
      exact List.mem_cons_of_mem _ (ih seen x h)
    · rw [if_neg hs] at h
      rcases List.mem_cons.mp h with rfl | h2
      · exact List.mem_cons_self _ _
      · exact List.mem_cons_of_mem _ (ih _ x h2)

theorem rd_subset (l : List RecognizerResult) (x : RecognizerResult)
    (h : x ∈ EnhancedPhoneRecognizer.remove_duplicates l) : x ∈ l :=
  rd_aux_subset l [] x h

theorem rd_aux_span (l : List RecognizerResult) :
    ∀ seen x, x ∈ l →
      (∃ y ∈ EnhancedPhoneRecognizer.remove_duplicates_aux seen l,
        y.start = x.start ∧ y.stop = x.stop) ∨ (x.start, x.stop) ∈ seen := by
  induction l with
  | nil =>
    intro seen x h
    exact absurd h (List.not_mem_nil x)
  | cons r rest ih =>
    intro seen x hx
    rw [EnhancedPhoneRecognizer.remove_duplicates_aux]
    by_cases hs : (r.start, r.stop) ∈ seen
    · rw [if_pos hs]
      rcases List.mem_cons.mp hx with rfl | h2
      · exact Or.inr hs
      · exact ih seen x h2
    · rw [if_neg hs]
      rcases List.mem_cons.mp hx with rfl | h2
      · exact Or.inl ⟨x, List.mem_cons_self _ _, rfl, rfl⟩
      · rcases ih ((r.start, r.stop) :: seen) x h2 with ⟨y, hy, hy2⟩ | hseen
        · exact Or.inl ⟨y, List.mem_cons_of_mem _ hy, hy2⟩
        · rcases List.mem_cons.mp hseen with heq | hseen2
          · have h1 := congrArg Prod.fst heq
            have h2 := congrArg Prod.snd heq
            simp only at h1 h2
            exact Or.inl ⟨r, List.mem_cons_self _ _, h1.symm, h2.symm⟩
          · exact Or.inr hseen2

theorem rd_span (l : List RecognizerResult) (x : RecognizerResult) (hx : x ∈ l) :
    ∃ y ∈ EnhancedPhoneRecognizer.remove_duplicates l,
      y.start = x.start ∧ y.stop = x.stop := by
  rcases rd_aux_span l [] x hx with h | h
  · exact h
  · exact absurd h (List.not_mem_nil _)

theorem emitted_fields (matcher : List Char → String → List EnhancedPhoneRecognizer.PhoneMatch)
    (parseRegion : List Char → Option String) (regions : List String) (text : List Char)
    (r : RecognizerResult)
    (h : r ∈ EnhancedPhoneRecognizer.emitted matcher parseRegion regions text) :
    r.score = EnhancedPhoneRecognizer.SCORE ∧
    ∃ region ∈ regions, ∃ m ∈ matcher text region, r.start = m.mstart ∧ r.stop = m.mend := by
  rw [EnhancedPhoneRecognizer.emitted] at h
  obtain ⟨region, hregion, hr⟩ := List.mem_flatMap.mp h
  obtain ⟨m, hm, hm2⟩ := List.mem_map.mp hr
  cases hp : parseRegion (EnhancedPhoneRecognizer.matchedSub text m) with
  | some rc =>
    rw [hp] at hm2
    dsimp only at hm2
    subst hm2
    exact ⟨rfl, region, hregion, m, hm, rfl, rfl⟩
  | none =>
    rw [hp] at hm2
    dsimp only at hm2
    subst hm2
    exact ⟨rfl, region, hregion, m, hm, rfl, rfl⟩

theorem patternAnalyze_gating (entity explanation : String) (score : ℚ)
    (alts : List (List CharGroup)) (valid : List Char → Bool) (text : List Char)
    (entities : List String) (h : entity ∉ entities) :
    patternAnalyze entity explanation score alts valid text entities = [] := by
  rw [patternAnalyze, if_neg h]

/-- Claim C4 counterexample: the phone recognizer violates filter gating.
With PHONE_NUMBER absent from the requested entities and the external
matcher reporting one match, analyze still returns a nonempty list, because
the source analyze never consults its entities parameter. -/
theorem C4_filter_gating_counterexample :
    EnhancedPhoneRecognizer.PHONE_ENTITY ∉ ([] : List String) ∧
    EnhancedPhoneRecognizer.analyze demoMatcher demoParse demoRegions demoText [] ≠ [] := by
  exact ⟨by simp, by decide⟩

/-- Claim C4, amended: the five document recognizers return the empty list
whenever their entity type is not requested; the phone recognizer ignores
its entities parameter entirely, so its output is independent of the
requested entities (and can be nonempty even when PHONE_NUMBER is absent). -/
theorem C4_filter_gating_amended :
    (∀ text entities, AuMedicareProviderRecognizer.ENTITY ∉ entities →
      AuMedicareProviderRecognizer.analyze text entities = []) ∧
    (∀ text entities, AuDvaRecognizer.ENTITY ∉ entities →
      AuDvaRecognizer.analyze text entities = []) ∧
    (∀ text entities, AuCrnRecognizer.ENTITY ∉ entities →
      AuCrnRecognizer.analyze text entities = []) ∧
    (∀ text entities, AuPassportRecognizer.ENTITY ∉ entities →
      AuPassportRecognizer.analyze text entities = []) ∧
    (∀ text entities, AuDriversLicenseRecognizer.ENTITY ∉ entities →
      AuDriversLicenseRecognizer.analyze text entities = []) ∧
    (∀ matcher parseRegion regions text entities1 entities2,
      EnhancedPhoneRecognizer.analyze matcher parseRegion regions text entities1 =
        EnhancedPhoneRecognizer.analyze matcher parseRegion regions text entities2) := by
  refine ⟨?_, ?_, ?_, ?_, ?_, ?_⟩
  · exact fun text entities h => patternAnalyze_gating _ _ _ _ _ _ _ h
  · exact fun text entities h => patternAnalyze_gating _ _ _ _ _ _ _ h
  · exact fun text entities h => patternAnalyze_gating _ _ _ _ _ _ _ h
  · exact fun text entities h => patternAnalyze_gating _ _ _ _ _ _ _ h
  · exact fun text entities h => patternAnalyze_gating _ _ _ _ _ _ _ h
  · exact fun _ _ _ _ _ _ => rfl

theorem C4_filter_gating_amended_witness :
    AuMedicareProviderRecognizer.analyze demoText [] = [] ∧
    AuDvaRecognizer.analyze demoText [] = [] ∧
    AuCrnRecognizer.analyze demoText [] = [] ∧
    AuPassportRecognizer.analyze demoText [] = [] ∧
    AuDriversLicenseRecognizer.analyze demoText [] = [] :=
  ⟨C4_filter_gating_amended.1 demoText [] (by simp),
   C4_filter_gating_amended.2.1 demoText [] (by simp),
   C4_filter_gating_amended.2.2.1 demoText [] (by simp),
   C4_filter_gating_amended.2.2.2.1 demoText [] (by simp),
   C4_filter_gating_amended.2.2.2.2.1 demoText [] (by simp)⟩

/-- Claim C7: phone parse-failure fallback. For every match the external
matcher produces in some configured region, when re-parsing the matched
substring fails, the candidate is not dropped: the emitted results contain
a result for its span with the fixed score 0.7 whose explanation names the
originally configured region, and the final analyze output still contains
a result with that span and score 0.7. No exception propagates: the parse
failure is modelled as the none branch and both branches emit. -/
theorem C7_phone_parse_fallback
    (matcher : List Char → String → List EnhancedPhoneRecognizer.PhoneMatch)
    (parseRegion : List Char → Option String) (regions : List String) (text : List Char)
    (entities : List String) (region : String) (m : EnhancedPhoneRecognizer.PhoneMatch)
    (hreg : region ∈ regions) (hm : m ∈ matcher text region)
    (hfail : parseRegion (EnhancedPhoneRecognizer.matchedSub text m) = none) :
    EnhancedPhoneRecognizer.get_recognizer_result m region ∈
      EnhancedPhoneRecognizer.emitted matcher parseRegion regions text ∧
    (EnhancedPhoneRecognizer.get_recognizer_result m region).score = 7/10 ∧
    (EnhancedPhoneRecognizer.get_recognizer_result m region).explanation = region ∧
    ∃ r ∈ EnhancedPhoneRecognizer.analyze matcher parseRegion regions text entities,
      r.start = m.mstart ∧ r.stop = m.mend ∧ r.score = 7/10 := by
  have hmem : EnhancedPhoneRecognizer.get_recognizer_result m region ∈
      EnhancedPhoneRecognizer.emitted matcher parseRegion regions text := by
    rw [EnhancedPhoneRecognizer.emitted]
    rw [List.mem_flatMap]
    refine ⟨region, hreg, ?_⟩
    rw [List.mem_map]
    refine ⟨m, hm, ?_⟩
    rw [hfail]
  refine ⟨hmem, rfl, rfl, ?_⟩
  obtain ⟨y, hy, hys, hyt⟩ := rd_span _ _ hmem
  refine ⟨y, hy, ?_, ?_, ?_⟩
  · rw [hys]
    rfl
  · rw [hyt]
    rfl
  · exact (emitted_fields matcher parseRegion regions text y (rd_subset _ y hy)).1

theorem C7_phone_parse_fallback_witness :
    EnhancedPhoneRecognizer.get_recognizer_result demoMatch regionAU ∈
      EnhancedPhoneRecognizer.emitted demoMatcher demoParse demoRegions demoText ∧
    (EnhancedPhoneRecognizer.get_recognizer_result demoMatch regionAU).score = 7/10 :=
  ⟨(C7_phone_parse_fallback demoMatcher demoParse demoRegions demoText [] regionAU demoMatch
      (by simp [demoRegions]) (by simp [demoMatcher]) rfl).1,
   (C7_phone_parse_fallback demoMatcher demoParse demoRegions demoText [] regionAU demoMatch
      (by simp [demoRegions]) (by simp [demoMatcher]) rfl).2.1⟩

theorem tryGroups_le {s : List Char} {i j : Nat} {gs : List CharGroup}
    (h : tryGroups s i gs = some j) : j ≤ s.length := by
  rw [tryGroups] at h
  split_ifs at h with hc
  have hj := Option.some.inj h
  omega

theorem exists_of_findSome_eq_some {α β : Type} {f : α → Option β} {l : List α} {b : β}
    (h : l.findSome? f = some b) : ∃ a ∈ l, f a = some b := by
  induction l with
  | nil => simp [List.findSome?] at h
  | cons a t ih =>
    cases hfa : f a with
    | some b2 =>
      rw [List.findSome?_cons, hfa] at h
      exact ⟨a, List.mem_cons_self _ _, hfa.trans h⟩
    | none =>
      rw [List.findSome?_cons, hfa] at h
      obtain ⟨x, hx, hfx⟩ := ih h
      exact ⟨x, List.mem_cons_of_mem _ hx, hfx⟩

theorem altsMatchAt_le (alts : List (List CharGroup)) (s : List Char) :
    ∀ i j, altsMatchAt alts s i = some j → j ≤ s.length := by
  intro i j h
  rw [altsMatchAt] at h
  split_ifs at h with hb
  obtain ⟨gs, -, hg⟩ := exists_of_findSome_eq_some h
  exact tryGroups_le hg

theorem finditerAux_bounds (matchAt : List Char → Nat → Option Nat) (s : List Char)
    (hA : ∀ i j, matchAt s i = some j → j ≤ s.length) :
    ∀ fuel i p, p ∈ finditerAux matchAt s i fuel → p.1 < p.2 ∧ p.2 ≤ s.length := by
  intro fuel
  induction fuel with
  | zero =>
    intro i p h
    simp [finditerAux] at h
  | succ n ih =>
    intro i p h
    rw [finditerAux] at h
    by_cases hi : i < s.length
    · rw [if_pos hi] at h
      cases hm : matchAt s i with
      | some j =>
        rw [hm] at h
        dsimp only at h
        by_cases hij : i < j
        · rw [if_pos hij] at h
          rcases List.mem_cons.mp h with rfl | h2
          · exact ⟨hij, hA i j hm⟩
          · exact ih j p h2
        · rw [if_neg hij] at h
          exact ih (i + 1) p h
      | none =>
        rw [hm] at h
        dsimp only at h
        exact ih (i + 1) p h
    · rw [if_neg hi] at h
      simp at h

theorem patternAnalyze_bounds (entity explanation : String) (score : ℚ)
    (alts : List (List CharGroup)) (valid : List Char → Bool) (text : List Char)
    (entities : List String) (r : RecognizerResult)
    (hr : r ∈ patternAnalyze entity explanation score alts valid text entities) :
    r.start < r.stop ∧ r.stop ≤ text.length := by
  rw [patternAnalyze] at hr
  split_ifs at hr with hent
  · obtain ⟨p, hp, hpr⟩ := List.mem_filterMap.mp hr
    rw [finditer] at hp
    have hb := finditerAux_bounds (altsMatchAt alts) text (altsMatchAt_le alts text)
      (text.length + 1) 0 p hp
    split_ifs at hpr with hv
    obtain rfl := Option.some.inj hpr
    exact hb
  · exact absurd hr (List.not_mem_nil r)

/-- Claim C9: span invariant. Every result any of the six recognizers
returns has a half-open span with start strictly below stop and stop within
the text length; for the phone recognizer this holds whenever the external
matcher reports in-bounds spans. -/
theorem C9_span_invariant :
    (∀ text entities r, r ∈ AuMedicareProviderRecognizer.analyze text entities →
      r.start < r.stop ∧ r.stop ≤ text.length) ∧
    (∀ text entities r, r ∈ AuDvaRecognizer.analyze text entities →
      r.start < r.stop ∧ r.stop ≤ text.length) ∧
    (∀ text entities r, r ∈ AuCrnRecognizer.analyze text entities →
      r.start < r.stop ∧ r.stop ≤ text.length) ∧
    (∀ text entities r, r ∈ AuPassportRecognizer.analyze text entities →
      r.start < r.stop ∧ r.stop ≤ text.length) ∧
    (∀ text entities r, r ∈ AuDriversLicenseRecognizer.analyze text entities →
      r.start < r.stop ∧ r.stop ≤ text.length) ∧
    (∀ matcher parseRegion regions text entities,
      (∀ region m, m ∈ matcher text region → m.mstart < m.mend ∧ m.mend ≤ text.length) →
      ∀ r, r ∈ EnhancedPhoneRecognizer.analyze matcher parseRegion regions text entities →
        r.start < r.stop ∧ r.stop ≤ text.length) := by
  refine ⟨?_, ?_, ?_, ?_, ?_, ?_⟩
  · exact fun text entities r hr => patternAnalyze_bounds _ _ _ _ _ _ _ r hr
  · exact fun text entities r hr => patternAnalyze_bounds _ _ _ _ _ _ _ r hr
  · exact fun text entities r hr => patternAnalyze_bounds _ _ _ _ _ _ _ r hr
  · exact fun text entities r hr => patternAnalyze_bounds _ _ _ _ _ _ _ r hr
  · exact fun text entities r hr => patternAnalyze_bounds _ _ _ _ _ _ _ r hr
  · intro matcher parseRegion regions text entities hbound r hr
    have hr2 := rd_subset _ r hr
    obtain ⟨-, region, -, m, hm, hs, ht⟩ :=
      emitted_fields matcher parseRegion regions text r hr2
    have hb := hbound region m hm
    rw [hs, ht]
    exact hb

theorem C9_span_invariant_witness :
    phoneDemoResult.start < phoneDemoResult.stop ∧
    phoneDemoResult.stop ≤ demoText.length :=
  C9_span_invariant.2.2.2.2.2 demoMatcher demoParse demoRegions demoText []
    (fun region m hm => by
      have hmd : m = demoMatch := by simpa [demoMatcher] using hm
      subst hmd
      exact ⟨by decide, by decide⟩)
    phoneDemoResult (show phoneDemoResult ∈ [phoneDemoResult] from List.mem_singleton_self _)

theorem getD_mem_of_lt {α : Type} (l : List α) (i : Nat) (d : α) (h : i < l.length) :
    l.getD i d ∈ l := by
  induction l generalizing i with
  | nil => simp at h
  | cons a t ih =>
    cases i with
    | zero => simp
    | succ k =>
      simp only [List.getD_cons_succ]
      refine List.mem_cons_of_mem _ (ih k ?_)
      simp only [List.length_cons] at h
      omega

theorem clean_crn_no_sep : ∀ s : List Char, ∀ c ∈ AuCrnRecognizer.clean_crn s,
    pyIsSpaceChar c = false ∧ c ≠ '-' := by
  intro s c hc
  rw [AuCrnRecognizer.clean_crn] at hc
  have h2 := List.of_mem_filter hc
  rw [decide_eq_true_iff] at h2
  constructor
  · cases hps : pyIsSpaceChar c
    · rfl
    · exact absurd (by simp [sepClass, hps] : sepClass c = true) h2
  · intro hcm
    subst hcm
    exact h2 (by decide)

/-- Claim C10: the CRN space-dependant branch is unreachable. Cleaning
removes every space and hyphen, so the character at cleaned position 10 is
never a space, every accepted 11-character cleaned CRN has an alphabetic
dependant, and appending a trailing space to a CRN leaves validation
unchanged: the space-dependant form is validated as the 10-character form. -/
theorem C10_crn_space_dependant :
    (∀ s : List Char, ∀ c ∈ AuCrnRecognizer.clean_crn s,
      pyIsSpaceChar c = false ∧ c ≠ '-') ∧
    (∀ s : List Char, 10 < (AuCrnRecognizer.clean_crn s).length →
      (AuCrnRecognizer.clean_crn s).getD 10 ' ' ≠ ' ') ∧
    (∀ s : List Char, AuCrnRecognizer.is_valid_crn s = true →
      (AuCrnRecognizer.clean_crn s).length = 11 →
      pyIsAlpha ((AuCrnRecognizer.clean_crn s).getD 10 ' ') = true) ∧
    (∀ s : List Char, AuCrnRecognizer.is_valid_crn (s ++ [' ']) =
      AuCrnRecognizer.is_valid_crn s) ∧
    (AuCrnRecognizer.is_valid_crn crnSpaceDepExample = true ∧
      (AuCrnRecognizer.clean_crn crnSpaceDepExample).length = 10) := by
  refine ⟨clean_crn_no_sep, ?_, ?_, ?_, by decide, by decide⟩
  · intro s hlen heq
    have hmem : (AuCrnRecognizer.clean_crn s).getD 10 ' ' ∈ AuCrnRecognizer.clean_crn s :=
      getD_mem_of_lt _ 10 ' ' (by omega)
    have hsp := (clean_crn_no_sep s _ hmem).1
    rw [heq] at hsp
    exact absurd hsp (by decide)
  · intro s hv hlen
    rw [AuCrnRecognizer.is_valid_crn, AuCrnRecognizer.validClean] at hv
    dsimp only at hv
    by_cases h1 : (AuCrnRecognizer.clean_crn s).length < 10 ∨
        11 < (AuCrnRecognizer.clean_crn s).length
    · rw [if_pos h1] at hv
      exact absurd hv (by simp)
    · rw [if_neg h1] at hv
      by_cases h2 : (AuCrnRecognizer.clean_crn s).getD 0 ' ' ∉ AuCrnRecognizer.STATE_CODES
      · rw [if_pos h2] at hv
        exact absurd hv (by simp)
      · rw [if_neg h2] at hv
        by_cases h3 : ¬ pyStrIsDigit (((AuCrnRecognizer.clean_crn s).drop 1).take 8) = true
        · rw [if_pos h3] at hv
          exact absurd hv (by simp)
        · rw [if_neg h3] at hv
          by_cases h4 : (AuCrnRecognizer.clean_crn s).getD 9 ' ' ∉
              AuCrnRecognizer.CHECK_DIGITS
          · rw [if_pos h4] at hv
            exact absurd hv (by simp)
          · rw [if_neg h4] at hv
            by_cases h5 : (AuCrnRecognizer.clean_crn s).length = 11 ∧
                ¬ (pyIsAlpha ((AuCrnRecognizer.clean_crn s).getD 10 ' ') = true ∨
                  (AuCrnRecognizer.clean_crn s).getD 10 ' ' = ' ')
            · rw [if_pos h5] at hv
              exact absurd hv (by simp)
            · have hor : pyIsAlpha ((AuCrnRecognizer.clean_crn s).getD 10 ' ') = true ∨
                  (AuCrnRecognizer.clean_crn s).getD 10 ' ' = ' ' := by
                by_contra hno
                exact h5 ⟨hlen, hno⟩
              rcases hor with h | h
              · exact h
              · exfalso
                have hmem : (AuCrnRecognizer.clean_crn s).getD 10 ' ' ∈
                    AuCrnRecognizer.clean_crn s :=
                  getD_mem_of_lt _ 10 ' ' (by omega)
                have hsp := (clean_crn_no_sep s _ hmem).1
                rw [h] at hsp
                exact absurd hsp (by decide)
  · intro s
    have hcl : AuCrnRecognizer.clean_crn (s ++ [' ']) =
        AuCrnRecognizer.clean_crn s ++ AuCrnRecognizer.clean_crn [' '] := by
      rw [AuCrnRecognizer.clean_crn, AuCrnRecognizer.clean_crn, AuCrnRecognizer.clean_crn,
        List.filter_append]
    have hsp : AuCrnRecognizer.clean_crn [' '] = [] := rfl
    rw [AuCrnRecognizer.is_valid_crn, AuCrnRecognizer.is_valid_crn, hcl, hsp,
      List.append_nil]

theorem C10_crn_space_dependant_witness :
    pyIsAlpha ((AuCrnRecognizer.clean_crn crnDepExample).getD 10 ' ') = true ∧
    AuCrnRecognizer.is_valid_crn (crnAcceptExample ++ [' ']) =
      AuCrnRecognizer.is_valid_crn crnAcceptExample :=
  ⟨C10_crn_space_dependant.2.2.1 crnDepExample (by decide) (by decide),
    C10_crn_space_dependant.2.2.2.1 crnAcceptExample⟩
